import Mathlib

/-!
Shallow embedding of the fit-result manager and the toy systematic loop of
the `test_analysis_tools` repository (`analysis/fit/result.py`,
`analysis/toys/systematics.py`, `analysis/toys/syst_toys.py`).

Numeric values carried by fit results are embedded as `Int`: the code under
verification only stores, copies, reshapes and compares these values, so the
exact numeric domain does not matter for any of the verified claims.
-/

/-- Python-level exceptions raised by the embedded code. `alreadyInit` is
`AlreadyInitializedError` and `notInit` is `NotInitializedError` from
result.py; the remaining constructors stand for the Python built-in
exceptions of the same names. -/
inductive PyErr where
  | alreadyInit
  | notInit
  | keyError (k : String)
  | valueError
  | typeError
  | attributeError
  | runtimeError
  deriving DecidableEq, Repr

/-- One floating fit parameter as stored by `FitResult.from_roofit`: the
tuple `(getVal, getError, getErrorLo, getErrorHi)`. -/
structure FitParam where
  value : Int
  error : Int
  errorLo : Int
  errorHi : Int
  deriving DecidableEq, Repr

/-- Value stored under `covariance-matrix/matrix`: either the flat sequence
found in serialized records or the square in-memory matrix object. -/
inductive MatVal where
  | flat (xs : List Int)
  | square (m : List (List Int))
  deriving DecidableEq, Repr

/-- Entries of the stored matrix value in row-major order (the order in
which `np.array(...)` and `.getA1()` traverse it). -/
def MatVal.entries : MatVal → List Int
  | .flat xs => xs
  | .square m => m.flatten

/-- The `_result` dictionary of a `FitResult`. The five keys checked by
`from_yaml` are always present (the type enforces the check that the code
performs); `edm` is optional because neither `from_yaml` nor
`from_yaml_file` requires it — only `from_roofit` always stores it. -/
structure FitRecord where
  fitParameters : List (String × FitParam)
  fitParametersInitial : List (String × Int)
  constParameters : List (String × Int)
  covQuality : Int
  covMatrix : MatVal
  status : List (String × Int)
  edm : Option Int
  deriving DecidableEq, Repr

/-- A `FitResult` manager: `_result` is `None` until populated. A populated
record is a non-empty Python dict (it always carries its mandatory keys), so
the truthiness tests done by the `ensure_initialized` and
`ensure_non_initialized` decorators coincide with `Option.isSome`. -/
structure FitResult where
  result : Option FitRecord
  deriving DecidableEq, Repr

/-- The data `FitResult.from_roofit` extracts from a `ROOT.RooFitResult`. -/
structure RooFitResult where
  constPars : List (String × Int)
  floatParsFinal : List (String × FitParam)
  floatParsInit : List (String × Int)
  covQual : Int
  covarianceMatrix : List (List Int)
  statusHistory : List (String × Int)
  edm : Int
  deriving DecidableEq, Repr

/-- Python dict read access `d.get(k)` on a string-keyed association list. -/
def alookup {α : Type _} (d : List (String × α)) (k : String) : Option α :=
  (d.find? fun p => p.1 == k).map Prod.snd

/-- Python `d.get(k, v)` with a default. -/
def alookupD {α : Type _} (d : List (String × α)) (k : String) (v : α) : α :=
  (alookup d k).getD v

/-- Python dict assignment `d[k] = v` (also the behaviour of `OrderedDict`
construction and `update`): an existing key keeps its position and receives
the new value, a new key is appended at the end. -/
def odInsert {α : Type _} (d : List (String × α)) (k : String) (v : α) :
    List (String × α) :=
  if d.any (fun p => p.1 == k) then
    d.map fun p => if p.1 == k then (k, v) else p
  else
    d ++ [(k, v)]

/-- `OrderedDict(kvs)` built from a sequence of key-value pairs. -/
def odOfList {α : Type _} (kvs : List (String × α)) : List (String × α) :=
  kvs.foldl (fun d p => odInsert d p.1 p.2) []

/-- Python `d.update(d2)`. -/
def odUpdate {α : Type _} (d d2 : List (String × α)) : List (String × α) :=
  d2.foldl (fun acc p => odInsert acc p.1 p.2) d

def FitResult.get_result (s : FitResult) : Option FitRecord :=
  s.result

/-- Embeds `FitResult.from_roofit` (result.py, lines 68-108). The
`ensure_non_initialized` decorator is inlined as the initial guard. -/
def FitResult.from_roofit (s : FitResult) (r : RooFitResult) :
    Except PyErr FitResult :=
  match s.result with
  | some _ => .error .alreadyInit
  | none =>
      let extracted : FitRecord :=
        { fitParameters := r.floatParsFinal
          fitParametersInitial := r.floatParsInit
          constParameters := r.constPars
          covQuality := r.covQual
          covMatrix := .square r.covarianceMatrix
          status := r.statusHistory
          edm := some r.edm }
      .ok { result := some extracted }

/-- Splits `xs` into `n` consecutive rows of `k` entries each: the effect of
`np.array(xs).reshape(n, k)` once numpy's length check has passed. -/
def chunkRows : Nat → Nat → List Int → List (List Int)
  | 0, _, _ => []
  | n + 1, k, xs => xs.take k :: chunkRows n k (xs.drop k)

/-- Embeds `FitResult.from_yaml` (result.py, lines 110-138). The
mandatory-key checks are enforced by the `FitRecord` type; the `reshape`
call succeeds exactly when the matrix holds `K * K` entries for `K` fit
parameters and raises `ValueError` otherwise. -/
def FitResult.from_yaml (s : FitResult) (d : FitRecord) : Except PyErr FitResult :=
  match s.result with
  | some _ => .error .alreadyInit
  | none =>
      let k := d.fitParameters.length
      let xs := d.covMatrix.entries
      if xs.length = k * k then
        .ok { result := some { d with covMatrix := .square (chunkRows k k xs) } }
      else
        .error .valueError

/-- Embeds `FitResult.from_yaml_file` (result.py, lines 140-168): the loaded
and validated file content is stored as is — in particular the covariance
matrix is NOT reshaped by this population path. -/
def FitResult.from_yaml_file (s : FitResult) (content : FitRecord) :
    Except PyErr FitResult :=
  match s.result with
  | some _ => .error .alreadyInit
  | none => .ok { result := some content }

/-- Embeds `FitResult.to_yaml` (result.py, lines 184-197): a deep copy of
the stored record with the matrix flattened by `.getA1()`, an attribute that
only the square in-memory matrix object provides. -/
def FitResult.to_yaml (s : FitResult) : Except PyErr FitRecord :=
  match s.result with
  | none => .error .notInit
  | some r =>
      match r.covMatrix with
      | .square m => .ok { r with covMatrix := .flat m.flatten }
      | .flat _ => .error .attributeError

/-- A value stored in the flat dictionary produced by `to_plain_dict`. -/
inductive PlainVal where
  | num (n : Int)
  | arr (xs : List Int)
  deriving DecidableEq, Repr

/-- The four per-parameter entries produced by the first comprehension of
`to_plain_dict`: the stored tuple `(value, error, errorLo, errorHi)` zipped
with the suffixes `('', '_err_hesse', '_err_plus', '_err_minus')`. -/
def paramColumns (name : String) (p : FitParam) : List (String × PlainVal) :=
  [(name ++ "", .num p.value),
   (name ++ "_err_hesse", .num p.error),
   (name ++ "_err_plus", .num p.errorLo),
   (name ++ "_err_minus", .num p.errorHi)]

/-- Embeds `FitResult.to_plain_dict` (result.py, lines 219-244). -/
def FitResult.to_plain_dict (s : FitResult) (skip_cov : Bool) :
    Except PyErr (List (String × PlainVal)) :=
  match s.result with
  | none => .error .notInit
  | some r =>
      let d := odOfList ((r.fitParameters.map fun p => paramColumns p.1 p.2).flatten)
      let d := odUpdate d
        (odOfList (r.constParameters.map fun p => (p.1, PlainVal.num p.2)))
      let d := odInsert d "status_migrad" (.num (alookupD r.status "MIGRAD" (-1)))
      let d := odInsert d "status_hesse" (.num (alookupD r.status "HESSE" (-1)))
      let d := odInsert d "status_minos" (.num (alookupD r.status "MINOS" (-1)))
      let d := odInsert d "cov_quality" (.num r.covQuality)
      match r.edm with
      | none => .error (.keyError "edm")
      | some e =>
          let d := odInsert d "edm" (.num e)
          if skip_cov then .ok d
          else
            match r.covMatrix with
            | .square m => .ok (odInsert d "cov_matrix" (.arr m.flatten))
            | .flat _ => .error .attributeError

/-- Embeds `FitResult.get_fit_parameter` (result.py, lines 246-261). -/
def FitResult.get_fit_parameter (s : FitResult) (name : String) :
    Except PyErr FitParam :=
  match s.result with
  | none => .error .notInit
  | some r =>
      match alookup r.fitParameters name with
      | some p => .ok p
      | none => .error (.keyError name)

/-- Embeds `FitResult.get_const_parameter` (result.py, lines 263-277). -/
def FitResult.get_const_parameter (s : FitResult) (name : String) :
    Except PyErr Int :=
  match s.result with
  | none => .error .notInit
  | some r =>
      match alookup r.constParameters name with
      | some v => .ok v
      | none => .error (.keyError name)

/-- Embeds `FitResult.get_fit_parameters` (result.py, lines 279-287). -/
def FitResult.get_fit_parameters (s : FitResult) :
    Except PyErr (List (String × FitParam)) :=
  match s.result with
  | none => .error .notInit
  | some r => .ok r.fitParameters

/-- Embeds `FitResult.get_covariance_matrix` (result.py, lines 289-300). -/
def FitResult.get_covariance_matrix (s : FitResult) : Except PyErr MatVal :=
  match s.result with
  | none => .error .notInit
  | some r => .ok r.covMatrix

/-- Embeds `FitResult.get_edm` (result.py, lines 302-310). -/
def FitResult.get_edm (s : FitResult) : Except PyErr Int :=
  match s.result with
  | none => .error .notInit
  | some r =>
      match r.edm with
      | some e => .ok e
      | none => .error (.keyError "edm")

/-- Embeds `FitResult.has_converged` (result.py, lines 312-321):
`not any(status for status in statuses)` is true exactly when every status
code is falsy, i.e. equal to zero. -/
def FitResult.has_converged (s : FitResult) : Except PyErr Bool :=
  match s.result with
  | none => .error .notInit
  | some r => .ok (!(r.status.any fun p => !(p.2 == 0)) && (r.covQuality == 3))

/-- Embeds `FitResult.generate_random_pars` (result.py, lines 323-344). The
vector drawn by `np.random.multivariate_normal` is an input (`noise`): the
draw happens in the external library; the repository code zips it with the
fit-parameter names and optionally appends the constants. -/
def FitResult.generate_random_pars (s : FitResult) (noise : List Int)
    (include_const : Bool) : Except PyErr (List (String × Int)) :=
  match s.result with
  | none => .error .notInit
  | some r =>
      let base := odOfList ((r.fitParameters.map Prod.fst).zip noise)
      .ok (if include_const then
             r.constParameters.foldl (fun d p => odInsert d p.1 p.2) base
           else base)

/-- Claim C1: once a `FitResult` is populated, every further populate call
(`from_roofit`, `from_yaml`, `from_yaml_file`) fails with
`AlreadyInitializedError` — the guard raises before the body runs, so no new
state is produced and the stored result is untouched — and on a
never-populated `FitResult` every read accessor (`to_yaml`,
`to_plain_dict`, `get_fit_parameter`, `get_const_parameter`,
`get_fit_parameters`, `get_covariance_matrix`, `get_edm`, `has_converged`,
`generate_random_pars`) fails with `NotInitializedError`. -/
theorem fitresult_state_machine (r d content : FitRecord) (raw : RooFitResult)
    (name : String) (noise : List Int) (b : Bool) :
    (FitResult.from_roofit ⟨some r⟩ raw = .error .alreadyInit ∧
     FitResult.from_yaml ⟨some r⟩ d = .error .alreadyInit ∧
     FitResult.from_yaml_file ⟨some r⟩ content = .error .alreadyInit) ∧
    (FitResult.to_yaml ⟨none⟩ = .error .notInit ∧
     FitResult.to_plain_dict ⟨none⟩ b = .error .notInit ∧
     FitResult.get_fit_parameter ⟨none⟩ name = .error .notInit ∧
     FitResult.get_const_parameter ⟨none⟩ name = .error .notInit ∧
     FitResult.get_fit_parameters ⟨none⟩ = .error .notInit ∧
     FitResult.get_covariance_matrix ⟨none⟩ = .error .notInit ∧
     FitResult.get_edm ⟨none⟩ = .error .notInit ∧
     FitResult.has_converged ⟨none⟩ = .error .notInit ∧
     FitResult.generate_random_pars ⟨none⟩ noise b = .error .notInit) :=
  ⟨⟨rfl, rfl, rfl⟩, rfl, rfl, rfl, rfl, rfl, rfl, rfl, rfl, rfl⟩

theorem chunkRows_flatten (n k : Nat) (xs : List Int) (h : xs.length = n * k) :
    (chunkRows n k xs).flatten = xs := by
  induction n generalizing xs with
  | zero =>
      have hnil : xs = [] := List.length_eq_zero.mp (by simpa using h)
      simp [hnil, chunkRows]
  | succ m ih =>
      have hdrop : (xs.drop k).length = m * k := by
        rw [List.length_drop, h, Nat.succ_mul, Nat.add_sub_cancel]
      simp [chunkRows, ih _ hdrop]

/-- Claim C2: a `FitResult` freshly populated from a well-formed serialized
record (a flat covariance sequence of length `K * K` for `K` fit
parameters) serializes back to exactly that record: the reshape done by
`from_yaml` and the flatten done by `to_yaml` are mutually inverse, and
every other field passes through unchanged. -/
theorem from_yaml_to_yaml_roundtrip (r : FitRecord) (xs : List Int)
    (hflat : r.covMatrix = .flat xs)
    (hlen : xs.length = r.fitParameters.length * r.fitParameters.length) :
    (FitResult.from_yaml ⟨none⟩ r).bind FitResult.to_yaml = .ok r := by
  have hentries : r.covMatrix.entries = xs := by rw [hflat]; rfl
  simp only [FitResult.from_yaml, hentries, hlen, if_pos, Except.bind,
    FitResult.to_yaml]
  rw [chunkRows_flatten _ _ _ hlen]
  rw [← hflat]

/-- Example record used to witness claim C2. -/
def roundtripRecordEx : FitRecord :=
  { fitParameters := [("mu", ⟨10, 1, -1, 1⟩), ("sigma", ⟨5, 2, -2, 2⟩)]
    fitParametersInitial := [("mu", 9), ("sigma", 4)]
    constParameters := [("c", 2)]
    covQuality := 3
    covMatrix := .flat [1, 2, 3, 4]
    status := [("MIGRAD", 0)]
    edm := some 0 }

theorem from_yaml_to_yaml_roundtrip_witness :
    roundtripRecordEx.covMatrix = MatVal.flat [1, 2, 3, 4] ∧
    (FitResult.from_yaml ⟨none⟩ roundtripRecordEx).bind FitResult.to_yaml =
      .ok roundtripRecordEx :=
  ⟨rfl, from_yaml_to_yaml_roundtrip roundtripRecordEx [1, 2, 3, 4] rfl (by decide)⟩

/-- Claim C3: for a populated result, `has_converged` returns `true` exactly
when every recorded status code equals the success sentinel `0` and the
covariance quality equals the best grade `3`; any deviation makes it return
`false`. -/
theorem has_converged_iff (s : FitResult) (r : FitRecord)
    (h : s.result = some r) :
    FitResult.has_converged s = .ok true ↔
      ((∀ p ∈ r.status, p.2 = 0) ∧ r.covQuality = 3) := by
  cases s with
  | mk res =>
      cases h
      simp [FitResult.has_converged, List.any_eq_true]

/-- Example record used to witness claims C3 and C4: one floating parameter,
one constant, all-zero statuses, quality 3, square covariance and `edm`
present. -/
def convergedRecordEx : FitRecord :=
  { fitParameters := [("mu", ⟨10, 1, -1, 1⟩)]
    fitParametersInitial := [("mu", 9)]
    constParameters := [("c", 2)]
    covQuality := 3
    covMatrix := .square [[4]]
    status := [("MIGRAD", 0), ("HESSE", 0)]
    edm := some 0 }

theorem has_converged_iff_witness :
    FitResult.has_converged ⟨some convergedRecordEx⟩ = .ok true :=
  (has_converged_iff ⟨some convergedRecordEx⟩ convergedRecordEx rfl).mpr
    (by decide)

/-- A store of Python dictionary objects, address to record. Used to track
the in-place mutation that `from_yaml` performs on its argument. -/
def Heap : Type := Nat → Option FitRecord

/-- A `FitResult` whose `_result` field is a reference into the heap. -/
structure FitResultRef where
  resultAddr : Option Nat

/-- Embeds `FitResult.from_yaml` (result.py, lines 110-138) at the object
level: `yaml_dict['covariance-matrix']['matrix'] = ...reshape...` overwrites
the covariance entry of the CALLER'S dictionary, and `self._result =
yaml_dict` then stores the very same address, so the internal state aliases
the caller's object. -/
def FitResultRef.from_yaml (s : FitResultRef) (addr : Nat) (h : Heap) :
    Except PyErr (FitResultRef × Heap) :=
  match s.resultAddr with
  | some _ => .error .alreadyInit
  | none =>
      match h addr with
      | none => .error (.keyError "invalid reference")
      | some d =>
          let k := d.fitParameters.length
          let xs := d.covMatrix.entries
          if xs.length = k * k then
            .ok (⟨some addr⟩,
                 fun a =>
                   if a = addr then
                     some { d with covMatrix := .square (chunkRows k k xs) }
                   else h a)
          else .error .valueError

/-- Claim C10: `from_yaml` stores the caller's dictionary itself and mutates
it in place — after a successful call the caller's record holds the
reshaped square matrix instead of the original flat sequence, the internal
state points at the caller's address, and no other heap object changes. -/
theorem from_yaml_aliases_argument (h : Heap) (addr : Nat) (d : FitRecord)
    (xs : List Int) (haddr : h addr = some d) (hflat : d.covMatrix = .flat xs)
    (hlen : xs.length = d.fitParameters.length * d.fitParameters.length) :
    (FitResultRef.from_yaml ⟨none⟩ addr h).map (fun p => p.1.resultAddr) =
      .ok (some addr) ∧
    (FitResultRef.from_yaml ⟨none⟩ addr h).map (fun p => p.2 addr) =
      .ok (some { d with
        covMatrix := .square (chunkRows d.fitParameters.length d.fitParameters.length xs) }) ∧
    ∀ a, a ≠ addr →
      (FitResultRef.from_yaml ⟨none⟩ addr h).map (fun p => p.2 a) = .ok (h a) := by
  have hentries : d.covMatrix.entries = xs := by rw [hflat]; rfl
  refine ⟨?_, ?_, ?_⟩
  · simp [FitResultRef.from_yaml, haddr, hentries, hlen, Except.map]
  · simp [FitResultRef.from_yaml, haddr, hentries, hlen, Except.map]
  · intro a ha
    simp [FitResultRef.from_yaml, haddr, hentries, hlen, Except.map, if_neg ha]

/-- Concrete flat-matrix record used to witness claim C10. -/
def flatRecordEx : FitRecord :=
  { fitParameters := [("mu", ⟨10, 1, -1, 1⟩), ("sigma", ⟨5, 2, -2, 2⟩)]
    fitParametersInitial := [("mu", 9), ("sigma", 4)]
    constParameters := [("c", 2)]
    covQuality := 3
    covMatrix := .flat [1, 2, 3, 4]
    status := [("MIGRAD", 0)]
    edm := some 0 }

/-- Concrete one-object heap used to witness claim C10. -/
def heapEx : Heap :=
  fun a => if a = 0 then some flatRecordEx else none

theorem from_yaml_aliases_argument_witness :
    (FitResultRef.from_yaml ⟨none⟩ 0 heapEx).map (fun p => p.1.resultAddr) =
      .ok (some 0) ∧
    (FitResultRef.from_yaml ⟨none⟩ 0 heapEx).map (fun p => p.2 0) =
      .ok (some { flatRecordEx with covMatrix := .square [[1, 2], [3, 4]] }) ∧
    (FitResultRef.from_yaml ⟨none⟩ 0 heapEx).map (fun p => p.2 1) =
      .ok (heapEx 1) := by
  obtain ⟨h1, h2, h3⟩ :=
    from_yaml_aliases_argument heapEx 0 flatRecordEx [1, 2, 3, 4] rfl rfl (by decide)
  refine ⟨h1, ?_, h3 1 (by decide)⟩
  rw [h2]
  rfl

/-- A numpy two-dimensional array: dimensions plus an entry function (the
embedded code never reads outside the dimensions). -/
structure NpMat where
  rows : Nat
  cols : Nat
  entry : Nat → Nat → Int

/-- One slice assignment `output[r:r+m.rows, c:c+m.cols] = m` of the
`make_block` loop. -/
def writeBlock (acc : Nat → Nat → Int) (r c : Nat) (m : NpMat) :
    Nat → Nat → Int :=
  fun i j =>
    if r ≤ i ∧ i < r + m.rows ∧ c ≤ j ∧ j < c + m.cols then
      m.entry (i - r) (j - c)
    else acc i j

/-- The assignment loop of `make_block` (systematics.py, lines 253-258):
each matrix is written at the current offsets, which then advance by its
dimensions. -/
def placeLoop : List NpMat → Nat → Nat → (Nat → Nat → Int) → Nat → Nat → Int
  | [], _, _, acc => acc
  | m :: ms, r, c, acc => placeLoop ms (r + m.rows) (c + m.cols) (writeBlock acc r c m)

/-- Embeds `make_block` (systematics.py, lines 241-259): a zero matrix of
the summed dimensions with every input written at successive diagonal
offsets. -/
def make_block (ms : List NpMat) : NpMat :=
  { rows := (ms.map NpMat.rows).sum
    cols := (ms.map NpMat.cols).sum
    entry := placeLoop ms 0 0 fun _ _ => 0 }

/-- Row offset at which the k-th input block is placed. -/
def rowOff : List NpMat → Nat → Nat
  | _, 0 => 0
  | [], _ + 1 => 0
  | m :: ms, k + 1 => m.rows + rowOff ms k

/-- Column offset at which the k-th input block is placed. -/
def colOff : List NpMat → Nat → Nat
  | _, 0 => 0
  | [], _ + 1 => 0
  | m :: ms, k + 1 => m.cols + colOff ms k

theorem placeLoop_low_row (ms : List NpMat) (r c : Nat) (acc : Nat → Nat → Int)
    (i j : Nat) (hi : i < r) : placeLoop ms r c acc i j = acc i j := by
  induction ms generalizing r c acc with
  | nil => rfl
  | cons m ms ih =>
      rw [placeLoop, ih _ _ _ (lt_of_lt_of_le hi (Nat.le_add_right r m.rows))]
      rw [writeBlock, if_neg (by omega)]

theorem placeLoop_on_block (ms : List NpMat) (k : Nat) (hk : k < ms.length)
    (r c : Nat) (acc : Nat → Nat → Int) (i j : Nat)
    (hi : i < (ms.get ⟨k, hk⟩).rows) (hj : j < (ms.get ⟨k, hk⟩).cols) :
    placeLoop ms r c acc (r + rowOff ms k + i) (c + colOff ms k + j) =
      (ms.get ⟨k, hk⟩).entry i j := by
  induction ms generalizing k r c acc with
  | nil => exact absurd hk (by simp)
  | cons m ms ih =>
      cases k with
      | zero =>
          have hget : (m :: ms).get ⟨0, hk⟩ = m := rfl
          rw [hget] at hi hj
          rw [placeLoop, rowOff, colOff]
          rw [show r + 0 + i = r + i by omega, show c + 0 + j = c + j by omega]
          rw [placeLoop_low_row ms _ _ _ _ _ (by omega)]
          rw [writeBlock, if_pos (by omega)]
          rw [hget, Nat.add_sub_cancel_left, Nat.add_sub_cancel_left]
      | succ n =>
          have hn : n < ms.length := by simpa using Nat.lt_of_succ_lt_succ hk
          have hget : (m :: ms).get ⟨n + 1, hk⟩ = ms.get ⟨n, hn⟩ := rfl
          rw [hget] at hi hj ⊢
          rw [placeLoop, rowOff, colOff]
          rw [show r + (m.rows + rowOff ms n) + i = r + m.rows + rowOff ms n + i by omega]
          rw [show c + (m.cols + colOff ms n) + j = c + m.cols + colOff ms n + j by omega]
          exact ih n hn _ _ _ hi hj

theorem placeLoop_off_blocks (ms : List NpMat) (r c : Nat)
    (acc : Nat → Nat → Int) (i j : Nat)
    (hout : ∀ k, ∀ hk : k < ms.length,
      ¬(r + rowOff ms k ≤ i ∧ i < r + rowOff ms k + (ms.get ⟨k, hk⟩).rows ∧
        c + colOff ms k ≤ j ∧ j < c + colOff ms k + (ms.get ⟨k, hk⟩).cols)) :
    placeLoop ms r c acc i j = acc i j := by
  induction ms generalizing r c acc with
  | nil => rfl
  | cons m ms ih =>
      rw [placeLoop]
      rw [ih (r + m.rows) (c + m.cols) _ ?_]
      · have h0 : ¬(r + rowOff (m :: ms) 0 ≤ i ∧
            i < r + rowOff (m :: ms) 0 + m.rows ∧
            c + colOff (m :: ms) 0 ≤ j ∧
            j < c + colOff (m :: ms) 0 + m.cols) := hout 0 (by simp)
        rw [rowOff, colOff] at h0
        rw [writeBlock, if_neg (by omega)]
      · intro k hk
        have hk' : k + 1 < (m :: ms).length := by simpa using Nat.succ_lt_succ hk
        have h1 := hout (k + 1) hk'
        have hget : (m :: ms).get ⟨k + 1, hk'⟩ = ms.get ⟨k, hk⟩ := rfl
        rw [hget, rowOff, colOff] at h1
        omega

/-- Claim C8: `make_block` returns a matrix whose row and column dimensions
are the sums of the inputs' dimensions, in which each input appears as a
successive diagonal block and every entry outside those blocks is zero. -/
theorem make_block_spec (ms : List NpMat) :
    (make_block ms).rows = (ms.map NpMat.rows).sum ∧
    (make_block ms).cols = (ms.map NpMat.cols).sum ∧
    (∀ k, ∀ hk : k < ms.length, ∀ i j : Nat,
      i < (ms.get ⟨k, hk⟩).rows → j < (ms.get ⟨k, hk⟩).cols →
      (make_block ms).entry (rowOff ms k + i) (colOff ms k + j) =
        (ms.get ⟨k, hk⟩).entry i j) ∧
    (∀ i j : Nat,
      (∀ k, ∀ hk : k < ms.length,
        ¬(rowOff ms k ≤ i ∧ i < rowOff ms k + (ms.get ⟨k, hk⟩).rows ∧
          colOff ms k ≤ j ∧ j < colOff ms k + (ms.get ⟨k, hk⟩).cols)) →
      (make_block ms).entry i j = 0) := by
  refine ⟨rfl, rfl, ?_, ?_⟩
  · intro k hk i j hi hj
    have h := placeLoop_on_block ms k hk 0 0 (fun _ _ => 0) i j hi hj
    simpa using h
  · intro i j hout
    have h := placeLoop_off_blocks ms 0 0 (fun _ _ => 0) i j ?_
    · simpa using h
    · intro k hk
      have := hout k hk
      omega

/-- Concrete 2 by 2 block used to witness claim C8. -/
def blockAEx : NpMat :=
  ⟨2, 2, fun i j => 10 * (i : Int) + (j : Int) + 1⟩

/-- Concrete 3 by 3 block used to witness claim C8. -/
def blockBEx : NpMat :=
  ⟨3, 3, fun i j => 100 * (i : Int) + 10 * (j : Int) + 5⟩

theorem make_block_spec_witness :
    (make_block [blockAEx, blockBEx]).rows = 5 ∧
    (make_block [blockAEx, blockBEx]).cols = 5 ∧
    (make_block [blockAEx, blockBEx]).entry 3 2 = blockBEx.entry 1 0 ∧
    (make_block [blockAEx, blockBEx]).entry 0 4 = 0 := by
  obtain ⟨h1, h2, hon, hoff⟩ := make_block_spec [blockAEx, blockBEx]
  refine ⟨by decide, by decide, ?_, ?_⟩
  · have h := hon 1 (by decide) 1 0 (by decide) (by decide)
    simpa [rowOff, colOff, blockAEx] using h
  · refine hoff 0 4 ?_
    intro k hk
    have hk2 : k < 2 := by simpa using hk
    interval_cases k
    · show ¬(0 ≤ 0 ∧ 0 < 0 + 2 ∧ 0 ≤ 4 ∧ 4 < 0 + 2)
      decide
    · show ¬(2 ≤ 0 ∧ 0 < 2 + 3 ∧ 2 ≤ 4 ∧ 4 < 2 + 3)
      decide

theorem odInsert_not_mem {α : Type _} (d : List (String × α)) (k : String)
    (v : α) (h : k ∉ d.map Prod.fst) : odInsert d k v = d ++ [(k, v)] := by
  have hfalse : d.any (fun p => p.1 == k) = false := by
    rw [List.any_eq_false]
    intro p hp
    simp only [beq_iff_eq]
    exact fun hk => h (hk ▸ List.mem_map_of_mem Prod.fst hp)
  simp [odInsert, hfalse]

theorem foldl_odInsert_append {α : Type _} (kvs : List (String × α)) :
    ∀ d : List (String × α), (kvs.map Prod.fst).Nodup →
      (∀ k ∈ kvs.map Prod.fst, k ∉ d.map Prod.fst) →
      kvs.foldl (fun acc p => odInsert acc p.1 p.2) d = d ++ kvs := by
  induction kvs with
  | nil => intro d _ _; simp
  | cons p rest ih =>
      intro d hnd hdisj
      have hp : p.1 ∉ d.map Prod.fst := hdisj p.1 (by simp)
      have hhead : p.1 ∉ rest.map Prod.fst := by
        simp only [List.map_cons, List.nodup_cons] at hnd
        exact hnd.1
      have hnd' : (rest.map Prod.fst).Nodup := by
        simp only [List.map_cons, List.nodup_cons] at hnd
        exact hnd.2
      have hdisj' : ∀ k ∈ rest.map Prod.fst,
          k ∉ (d ++ [(p.1, p.2)]).map Prod.fst := by
        intro k hk hmem
        rw [List.map_append, List.mem_append] at hmem
        rcases hmem with hkd | hkp
        · exact hdisj k (by simp [hk]) hkd
        · have hkp' : k = p.1 := by simpa using hkp
          exact hhead (hkp' ▸ hk)
      rw [List.foldl_cons, odInsert_not_mem d p.1 p.2 hp, ih _ hnd' hdisj']
      simp

theorem odOfList_nodup {α : Type _} (kvs : List (String × α))
    (h : (kvs.map Prod.fst).Nodup) : odOfList kvs = kvs := by
  simpa [odOfList] using foldl_odInsert_append kvs [] h (by simp)

theorem odUpdate_odOfList {α : Type _} (a b : List (String × α)) :
    odUpdate (odOfList a) b = odOfList (a ++ b) := by
  simp [odUpdate, odOfList, List.foldl_append]

theorem odInsert_odOfList {α : Type _} (a : List (String × α)) (k : String)
    (v : α) : odInsert (odOfList a) k v = odOfList (a ++ [(k, v)]) := by
  simp [odOfList, List.foldl_append]

theorem map_fst_pairmap {α β : Type _} (f : α → β) (l : List (String × α)) :
    (l.map fun p => (p.1, f p.2)).map Prod.fst = l.map Prod.fst := by
  induction l with
  | nil => rfl
  | cons p rest ih => simp [ih]

theorem paramColumns_flatten_length (l : List (String × FitParam)) :
    ((l.map fun p => paramColumns p.1 p.2).flatten).length = 4 * l.length := by
  induction l with
  | nil => rfl
  | cons p rest ih =>
      rw [List.map_cons, List.flatten_cons, List.length_append, ih]
      simp only [paramColumns, List.length_cons, List.length_nil]
      omega

/-- Every column name `to_plain_dict` can generate, in insertion order: four
per floating parameter, one per constant, the five fixed summary columns,
and the optional covariance column. -/
def plainKeys (r : FitRecord) : List String :=
  ((r.fitParameters.map fun p => paramColumns p.1 p.2).flatten).map Prod.fst ++
    r.constParameters.map Prod.fst ++
    ["status_migrad", "status_hesse", "status_minos", "cov_quality", "edm",
     "cov_matrix"]

/-- The key-value pairs `to_plain_dict` inserts, in order, for a record
whose `edm` entry is `e` and whose covariance matrix is the square `m`. -/
def plainKVs (r : FitRecord) (e : Int) (m : List (List Int)) (skip_cov : Bool) :
    List (String × PlainVal) :=
  (r.fitParameters.map fun p => paramColumns p.1 p.2).flatten ++
    (r.constParameters.map fun p => (p.1, PlainVal.num p.2)) ++
    ([("status_migrad", .num (alookupD r.status "MIGRAD" (-1))),
      ("status_hesse", .num (alookupD r.status "HESSE" (-1))),
      ("status_minos", .num (alookupD r.status "MINOS" (-1))),
      ("cov_quality", .num r.covQuality),
      ("edm", .num e)] ++
     if skip_cov then [] else [("cov_matrix", .arr m.flatten)])

theorem plainKVs_keys (r : FitRecord) (e : Int) (m : List (List Int))
    (sc : Bool) :
    (plainKVs r e m sc).map Prod.fst =
      ((r.fitParameters.map fun p => paramColumns p.1 p.2).flatten).map Prod.fst ++
        r.constParameters.map Prod.fst ++
        (["status_migrad", "status_hesse", "status_minos", "cov_quality", "edm"] ++
          if sc then [] else ["cov_matrix"]) := by
  cases sc <;> simp [plainKVs, map_fst_pairmap]

theorem to_plain_dict_eq_odOfList (r : FitRecord) (e : Int)
    (m : List (List Int)) (sc : Bool) (hedm : r.edm = some e)
    (hsq : r.covMatrix = .square m)
    (hck : (r.constParameters.map Prod.fst).Nodup) :
    FitResult.to_plain_dict ⟨some r⟩ sc = .ok (odOfList (plainKVs r e m sc)) := by
  have hconst : odOfList (r.constParameters.map fun p => (p.1, PlainVal.num p.2)) =
      r.constParameters.map fun p => (p.1, PlainVal.num p.2) :=
    odOfList_nodup _ (by rw [map_fst_pairmap]; exact hck)
  cases sc with
  | true =>
      simp only [FitResult.to_plain_dict, hedm, hsq, hconst, if_true,
        odUpdate_odOfList, odInsert_odOfList]
      congr 1
      simp [plainKVs, List.append_assoc]
  | false =>
      simp only [FitResult.to_plain_dict, hedm, hsq, hconst,
        odUpdate_odOfList, odInsert_odOfList, Bool.false_eq_true, if_false]
      congr 1
      simp [plainKVs, List.append_assoc]

/-- Claim C4 (amended): for every populated FitResult whose stored record
contains the distance-to-minimum entry (`edm`) and a square covariance
matrix — as every record produced by `from_roofit` or `from_yaml` does —
and whose generated column names are pairwise distinct, `to_plain_dict`
without covariance has exactly `4K + M + 5` entries (four per floating
parameter, one per constant, three stage status codes, the covariance
quality and the distance-to-minimum) and no `cov_matrix` column, while
requesting covariance adds the flattened matrix as exactly one extra
entry. -/
theorem to_plain_dict_column_count (s : FitResult) (r : FitRecord) (e : Int)
    (m : List (List Int)) (h : s.result = some r) (hedm : r.edm = some e)
    (hsq : r.covMatrix = .square m) (hnd : (plainKeys r).Nodup) :
    (∃ d, FitResult.to_plain_dict s true = .ok d ∧
      d.length = 4 * r.fitParameters.length + r.constParameters.length + 5 ∧
      "cov_matrix" ∉ d.map Prod.fst) ∧
    (∃ d, FitResult.to_plain_dict s false = .ok d ∧
      d.length = 4 * r.fitParameters.length + r.constParameters.length + 6 ∧
      "cov_matrix" ∈ d.map Prod.fst) := by
  cases s with
  | mk res =>
  cases h
  have hsplit : plainKeys r =
      (((r.fitParameters.map fun p => paramColumns p.1 p.2).flatten).map Prod.fst ++
        r.constParameters.map Prod.fst ++
        ["status_migrad", "status_hesse", "status_minos", "cov_quality", "edm"]) ++
        ["cov_matrix"] := by
    simp [plainKeys]
  have hnd6 : ((((r.fitParameters.map fun p => paramColumns p.1 p.2).flatten).map Prod.fst ++
      r.constParameters.map Prod.fst ++
      ["status_migrad", "status_hesse", "status_minos", "cov_quality", "edm"]) ++
      ["cov_matrix"]).Nodup := by
    rw [← hsplit]; exact hnd
  have hck : (r.constParameters.map Prod.fst).Nodup := by
    refine List.Nodup.sublist ?_ hnd
    rw [hsplit]
    exact ((List.sublist_append_right _ _).trans
      (List.sublist_append_left _ _)).trans (List.sublist_append_left _ _)
  have hnd5 : (((r.fitParameters.map fun p => paramColumns p.1 p.2).flatten).map Prod.fst ++
      r.constParameters.map Prod.fst ++
      ["status_migrad", "status_hesse", "status_minos", "cov_quality", "edm"]).Nodup :=
    List.Nodup.sublist (List.sublist_append_left _ _) hnd6
  have hnomem : "cov_matrix" ∉
      (((r.fitParameters.map fun p => paramColumns p.1 p.2).flatten).map Prod.fst ++
        r.constParameters.map Prod.fst ++
        ["status_migrad", "status_hesse", "status_minos", "cov_quality", "edm"]) := by
    rw [List.nodup_append] at hnd6
    intro hmem
    exact hnd6.2.2 hmem (List.mem_singleton_self _)
  have hkeys5 : (plainKVs r e m true).map Prod.fst =
      ((r.fitParameters.map fun p => paramColumns p.1 p.2).flatten).map Prod.fst ++
        r.constParameters.map Prod.fst ++
        ["status_migrad", "status_hesse", "status_minos", "cov_quality", "edm"] := by
    rw [plainKVs_keys]
    simp
  have hkeys6 : (plainKVs r e m false).map Prod.fst =
      (((r.fitParameters.map fun p => paramColumns p.1 p.2).flatten).map Prod.fst ++
        r.constParameters.map Prod.fst ++
        ["status_migrad", "status_hesse", "status_minos", "cov_quality", "edm"]) ++
        ["cov_matrix"] := by
    rw [plainKVs_keys]
    simp [List.append_assoc]
  constructor
  · refine ⟨plainKVs r e m true, ?_, ?_, ?_⟩
    · rw [to_plain_dict_eq_odOfList r e m true hedm hsq hck,
        odOfList_nodup _ (by rw [hkeys5]; exact hnd5)]
    · simp only [plainKVs, List.length_append, paramColumns_flatten_length,
        List.length_map, List.length_cons, List.length_nil, if_true]
    · rw [hkeys5]; exact hnomem
  · refine ⟨plainKVs r e m false, ?_, ?_, ?_⟩
    · rw [to_plain_dict_eq_odOfList r e m false hedm hsq hck,
        odOfList_nodup _ (by rw [hkeys6]; exact hnd6)]
    · simp only [plainKVs, List.length_append, paramColumns_flatten_length,
        List.length_map, List.length_cons, List.length_nil, Bool.false_eq_true,
        if_false]
    · rw [hkeys6]
      simp

theorem to_plain_dict_column_count_witness :
    (∃ d, FitResult.to_plain_dict ⟨some convergedRecordEx⟩ true = .ok d ∧
      d.length = 4 * convergedRecordEx.fitParameters.length +
        convergedRecordEx.constParameters.length + 5 ∧
      "cov_matrix" ∉ d.map Prod.fst) ∧
    (∃ d, FitResult.to_plain_dict ⟨some convergedRecordEx⟩ false = .ok d ∧
      d.length = 4 * convergedRecordEx.fitParameters.length +
        convergedRecordEx.constParameters.length + 6 ∧
      "cov_matrix" ∈ d.map Prod.fst) :=
  to_plain_dict_column_count ⟨some convergedRecordEx⟩ convergedRecordEx 0 [[4]]
    rfl rfl rfl (by decide)

/-- A well-formed serialized record that lacks the optional `edm` entry:
`from_yaml` requires only the five mandatory keys, so it accepts this
record. -/
def noEdmRecordEx : FitRecord :=
  { fitParameters := [("mu", ⟨10, 1, -1, 1⟩)]
    fitParametersInitial := [("mu", 9)]
    constParameters := [("c", 2)]
    covQuality := 3
    covMatrix := .flat [4]
    status := [("MIGRAD", 0)]
    edm := none }

/-- Claim C4 (counterexample): a FitResult populated through `from_yaml`
from a well-formed record without the `edm` entry is a populated FitResult
with `K = 1` floating and `M = 1` constant parameter and pairwise distinct
names, yet `to_plain_dict` raises `KeyError` on it instead of producing a
mapping with `4K + M + 5 = 10` entries. -/
theorem to_plain_dict_missing_edm :
    FitResult.from_yaml ⟨none⟩ noEdmRecordEx =
      .ok ⟨some { noEdmRecordEx with covMatrix := .square [[4]] }⟩ ∧
    FitResult.to_plain_dict ⟨some { noEdmRecordEx with covMatrix := .square [[4]] }⟩
      true = .error (.keyError "edm") := by
  constructor
  · rfl
  · rfl

/-- Outcome of the accept-reject generation loop of
`Systematic.get_dataset`. -/
inductive LoopOutcome where
  | exited (pds : Option (List Nat))
  | raised (e : PyErr)
  | spinning
  deriving DecidableEq, Repr

/-- Embeds the accept-reject loop of `Systematic.get_dataset`
(systematics.py, lines 167-181), indexed by remaining fuel. `batches call n`
stands for `pandas_from_dataset(pdf.generate(obs, n))` on the `call`-th
pass, `accept` for `acceptance.apply_accept_reject`, and `sample es n` for
`es.sample(n)`. The loop guard `while yield_to_generate:` re-reads a
variable that no statement of the body updates, and the
`if not pandas_dataset:` test raises `ValueError` as soon as
`pandas_dataset` holds a DataFrame, because the truth value of a DataFrame
is ambiguous in pandas. -/
def acceptRejectLoop (batches : Nat → Nat → List Nat)
    (accept : List Nat → List Nat) (sample : List Nat → Nat → List Nat)
    (y : Nat) : Nat → Nat → Option (List Nat) → LoopOutcome
  | 0, _, _ => .spinning
  | fuel + 1, call, pds =>
      if y ≠ 0 then
        let events := accept (batches call (y * 2))
        let events := if events.length > y then sample events y else events
        match pds with
        | none => acceptRejectLoop batches accept sample y fuel (call + 1) (some events)
        | some _ => .raised .valueError
      else .exited pds

/-- Claim C5 (code bug): with an acceptance filter that accepts every event,
a Poisson-sampled target yield of 1 and ample fuel, the generation loop
never terminates normally: `yield_to_generate` is never updated, so the
guard stays true, the second pass is always reached, and its
`if not pandas_dataset:` test on a DataFrame raises `ValueError`. The
claimed exit with exactly the target yield collected is unreachable. -/
theorem accept_reject_loop_never_collects :
    acceptRejectLoop (fun _ n => List.range n) id (fun es n => es.take n)
      1 10 0 none = .raised .valueError := by
  rfl

/-- A value stored in the per-iteration result dictionary of the toy loop
(syst_toys.py): integers, strings, the parameter-name list, the plain
dictionaries extracted from the two fits, and the generator-value
dictionary. -/
inductive PyVal where
  | num (n : Int)
  | str (s : String)
  | names (xs : List String)
  | plain (d : List (String × PlainVal))
  | plainInt (d : List (String × Int))
  deriving DecidableEq, Repr

/-- A string-keyed Python dictionary of the toy loop. -/
abbrev PyDict := List (String × PyVal)

/-- Python `d[k]` with its `KeyError`. -/
def dictGet (d : PyDict) (k : String) : Except PyErr PyVal :=
  match alookup d k with
  | some v => .ok v
  | none => .error (.keyError k)

/-- External collaborators of the toy loop — the randomizer produced by
`analysis.toys.get_randomizer` and the fit engine behind `analysis.fit.fit`,
neither of which lives under `src/` — modelled as deterministic functions of
the per-iteration seed: lines 127-129 of syst_toys.py install the freshly
drawn seed into both the numpy and the ROOT generators before any of them is
consumed, so everything these collaborators produce during an iteration is a
function of that seed. `fitOutcome` takes `true` for the nominal model and
`false` for the randomized model, then the seed and the dataset handle. -/
structure ToyEnv where
  genDataset : Nat → Except PyErr Nat
  currentValues : Nat → Except PyErr (List (String × Int))
  fitOutcome : Bool → Nat → Nat → Except PyErr Nat
  inputValues : List (String × Int)

/-- The body of the `try` block of `run` (syst_toys.py, lines 130-149):
generate the randomized dataset, read the generator values, fit it under the
nominal model, fit it under the randomized model. -/
def iterTry (env : ToyEnv) (seed : Nat) :
    Except PyErr (Nat × List (String × Int) × Nat × Nat) := do
  let ds ← env.genDataset seed
  let gv ← env.currentValues seed
  let fitNom ← env.fitOutcome true seed ds
  let fitRand ← env.fitOutcome false seed ds
  pure (ds, gv, fitNom, fitRand)

/-- Models lines 159 and 164 of syst_toys.py: `FitResult.from_roofit` is
accessed on the class and called with the raw engine result in place of
`self`, so the call fails before any state is read (an unbound-method
`TypeError` on Python 2; on Python 3 the inlined guard reads `get_result`
on the raw engine object, which does not have it). -/
def fromRoofitClassCall (_raw : Nat) : Except PyErr FitResult :=
  .error .typeError

/-- Embeds the per-iteration result capture of `run` (syst_toys.py, lines
155-168): the row dictionary receives `fitnum` and `seed`, then the
randomized fit is wrapped and flattened, then the nominal one, then the
generator values are attached. -/
def captureStep (i seed : Nat) (gv : List (String × Int))
    (fitRand fitNominal : Nat) : Except PyErr PyDict := do
  let resRand ← fromRoofitClassCall fitRand
  let pars ← resRand.get_fit_parameters
  let randD ← resRand.to_plain_dict false
  let resNominal ← fromRoofitClassCall fitNominal
  let nomD ← resNominal.to_plain_dict false
  pure [("fitnum", PyVal.num (i : Int)), ("seed", PyVal.num (seed : Int)),
        ("param_names", PyVal.names (pars.map Prod.fst)),
        ("rand", PyVal.plain randD),
        ("nominal", PyVal.plain nomD),
        ("gen", PyVal.plainInt gv)]

/-- One iteration of the loop body of `run` (syst_toys.py, lines 122-169):
any exception raised inside the `try` block — dataset generation or either
fit — is converted into a bare `RuntimeError`; the capture code after the
block runs unprotected. -/
def iterRun (env : ToyEnv) (i : Nat) (seed : Nat) : Except PyErr PyDict :=
  match iterTry env seed with
  | .error _ => .error .runtimeError
  | .ok (_ds, gv, fitNom, fitRand) => captureStep i seed gv fitRand fitNom

/-- The full iteration loop of `run`: `fit_results[fit_num] = result` for
`fit_num` in `range(nfits)`, stopping at the first raised exception. -/
def toyLoop (env : ToyEnv) (seeds : Nat → Nat) :
    Nat → Except PyErr (List (Nat × PyDict))
  | 0 => .ok []
  | n + 1 => do
      let rows ← toyLoop env seeds n
      let row ← iterRun env n (seeds n)
      pure (rows ++ [(n, row)])

/-- The dictionary the capture block stores for iteration `i` (syst_toys.py,
lines 155-168), with its keys in insertion order. -/
def capturedRow (i seed : Int) (parNames : List String)
    (randD nomD : List (String × PlainVal)) (gv : List (String × Int)) :
    PyDict :=
  [("fitnum", PyVal.num i), ("seed", PyVal.num seed),
   ("param_names", PyVal.names parNames),
   ("rand", PyVal.plain randD), ("nominal", PyVal.plain nomD),
   ("gen", PyVal.plainInt gv)]

/-- Embeds the per-row aggregation step of `run` (syst_toys.py, lines
178-191) up to its first failing lookups: the source first reads
`fit_res['fit_num']` — although every captured row stores the key `fitnum` —
then rebinds `fit_res` to a four-key dictionary and pops `param_names` and
reads `rand` from that rebound dictionary. The remaining lines (covariance
extraction and the column renaming driven by the loop-leftover `result`
variable of the fitting loop) are unreachable past these lookups. -/
def aggregateRow (modelName fitStrategy : String) (row : PyDict) :
    Except PyErr PyDict := do
  let fitnumV ← dictGet row "fit_num"
  let seedV ← dictGet row "seed"
  let fitRes : PyDict := [("fitnum", fitnumV), ("seed", seedV),
                          ("model_name", PyVal.str modelName),
                          ("fit_strategy", PyVal.str fitStrategy)]
  let _parNames ← dictGet fitRes "param_names"
  let _randD ← dictGet fitRes "rand"
  pure fitRes

/-- The aggregation loop of `run` (syst_toys.py, lines 175-198). -/
def aggregateAll (modelName fitStrategy : String) :
    List (Nat × PyDict) → Except PyErr (List PyDict)
  | [] => .ok []
  | (_, row) :: rest => do
      let r ← aggregateRow modelName fitStrategy row
      let rs ← aggregateAll modelName fitStrategy rest
      pure (r :: rs)

/-- The tables written to the HDF store at the end of a completed run. -/
structure RunOutput where
  fitResults : List PyDict
  inputValues : List (String × Int)
  deriving DecidableEq, Repr

/-- Embeds `run` from the iteration loop onward (syst_toys.py, lines
122-217): execute all iterations, aggregate the collected rows, and only
then write the output tables; an error anywhere before that point leaves
nothing persisted. -/
def toyRun (env : ToyEnv) (seeds : Nat → Nat) (n : Nat)
    (modelName fitStrategy : String) : Except PyErr RunOutput := do
  let rows ← toyLoop env seeds n
  let agg ← aggregateAll modelName fitStrategy rows
  pure { fitResults := agg, inputValues := env.inputValues }

/-- Claim C6 (code bug): every row the capture code can store uses the key
`fitnum` (first conjunct lists the full key set of a captured row), but the
aggregation step reads `fit_num`, so aggregating any captured row raises
`KeyError` and the claimed `fit_results` table — one row per iteration with
that iteration's own values — is never produced. -/
theorem aggregate_row_key_mismatch :
    (capturedRow 0 42 ["mu"] [("mu", .num 1)] [("mu", .num 1)]
      [("mu", 1)]).map Prod.fst =
      ["fitnum", "seed", "param_names", "rand", "nominal", "gen"] ∧
    aggregateRow "model" "simple"
      (capturedRow 0 42 ["mu"] [("mu", .num 1)] [("mu", .num 1)] [("mu", 1)]) =
      .error (.keyError "fit_num") :=
  ⟨rfl, rfl⟩

theorem toyLoop_ok (env : ToyEnv) (seeds : Nat → Nat) (j : Nat)
    (h : ∀ i, i < j → ∃ row, iterRun env i (seeds i) = .ok row) :
    ∃ rows, toyLoop env seeds j = .ok rows := by
  induction j with
  | zero => exact ⟨[], rfl⟩
  | succ m ih =>
      obtain ⟨rows, hrows⟩ := ih fun i hi => h i (Nat.lt_succ_of_lt hi)
      obtain ⟨row, hrow⟩ := h m (Nat.lt_succ_self m)
      refine ⟨rows ++ [(m, row)], ?_⟩
      simp only [toyLoop, hrows, hrow]
      rfl

theorem toyLoop_error (env : ToyEnv) (seeds : Nat → Nat) (n j : Nat)
    (hj : j < n)
    (hok : ∀ i, i < j → ∃ row, iterRun env i (seeds i) = .ok row)
    (hfail : iterRun env j (seeds j) = .error .runtimeError) :
    toyLoop env seeds n = .error .runtimeError := by
  induction n with
  | zero => omega
  | succ m ih =>
      rcases Nat.lt_succ_iff_lt_or_eq.mp hj with hlt | heq
      · have herr := ih hlt
        simp only [toyLoop, herr]
        rfl
      · subst heq
        obtain ⟨rows, hrows⟩ := toyLoop_ok env seeds j hok
        simp only [toyLoop, hrows, hfail]
        rfl

/-- Claim C7: if every iteration before `j` completes and iteration `j`'s
dataset generation or either fit raises any exception, the whole run returns
a bare `RuntimeError`: the iteration is not retried, the loop does not reach
any later iteration, and — because the output write happens only after the
loop and the aggregation succeed — no rows from earlier iterations are
persisted. -/
theorem run_aborts_on_iteration_error (env : ToyEnv) (seeds : Nat → Nat)
    (n j : Nat) (e : PyErr) (modelName fitStrategy : String) (hj : j < n)
    (hok : ∀ i, i < j → ∃ row, iterRun env i (seeds i) = .ok row)
    (hfail : iterTry env (seeds j) = .error e) :
    toyRun env seeds n modelName fitStrategy = .error .runtimeError := by
  have hrun : iterRun env j (seeds j) = .error .runtimeError := by
    simp [iterRun, hfail]
  have hloop := toyLoop_error env seeds n j hj hok hrun
  unfold toyRun
  rw [hloop]
  rfl

/-- Environment whose dataset generation always raises, used to witness
claim C7. -/
def failEnvEx : ToyEnv :=
  { genDataset := fun _ => .error .valueError
    currentValues := fun _ => .ok []
    fitOutcome := fun _ _ _ => .ok 0
    inputValues := [] }

theorem run_aborts_on_iteration_error_witness :
    (0 : Nat) < 1 ∧
      toyRun failEnvEx (fun i => i) 1 "model" "simple" = .error .runtimeError :=
  ⟨Nat.zero_lt_one,
   run_aborts_on_iteration_error failEnvEx (fun i => i) 1 0 .valueError
     "model" "simple" Nat.zero_lt_one
     (fun i hi => absurd hi (Nat.not_lt_zero i)) rfl⟩

theorem toyLoop_seeds_congr (env : ToyEnv) (s1 s2 : Nat → Nat) (n : Nat)
    (h : ∀ i, i < n → s1 i = s2 i) :
    toyLoop env s1 n = toyLoop env s2 n := by
  induction n with
  | zero => rfl
  | succ m ih =>
      simp only [toyLoop]
      rw [ih fun i hi => h i (Nat.lt_succ_of_lt hi), h m (Nat.lt_succ_self m)]

/-- Claim C9: the run is a deterministic function of the configuration and
of the per-iteration seed values drawn from the entropy source: two runs
with the same environment, iteration count and naming whose entropy source
yields the same seed for every executed iteration produce identical output
tables (and identical failures). All randomness consumed inside iteration
`i` is modelled as a function of the seed installed at its start, which is
exactly what lines 127-129 of syst_toys.py establish by reseeding both the
numpy and the ROOT generators from the freshly drawn seed. -/
theorem run_deterministic_in_seeds (env : ToyEnv) (s1 s2 : Nat → Nat)
    (n : Nat) (modelName fitStrategy : String)
    (h : ∀ i, i < n → s1 i = s2 i) :
    toyRun env s1 n modelName fitStrategy =
      toyRun env s2 n modelName fitStrategy := by
  unfold toyRun
  rw [toyLoop_seeds_congr env s1 s2 n h]

/-- Environment with successful collaborators, used to witness claim C9. -/
def detEnvEx : ToyEnv :=
  { genDataset := fun s => .ok s
    currentValues := fun _ => .ok [("mu", 1)]
    fitOutcome := fun _ s ds => .ok (s + ds)
    inputValues := [("mu", 1)] }

theorem run_deterministic_in_seeds_witness :
    toyRun detEnvEx (fun i => i + 5) 2 "model" "simple" =
      toyRun detEnvEx (fun i => 5 + i) 2 "model" "simple" :=
  run_deterministic_in_seeds detEnvEx (fun i => i + 5) (fun i => 5 + i) 2
    "model" "simple" (fun i _ => Nat.add_comm i 5)
